import Mathlib

/-!
Shallow embedding of the `shugart` storage core (crates/storage): the
bounds-checked byte `Cursor`, the versioned `DiskMetadata` codec, and the
`Disk` state with its space-reservation, write, flush and lock operations.

Bytes are modelled as `Nat` (values below 256 by convention of the
operations that produce them); machine `usize`/`u64` arithmetic is modelled
on `Nat` with explicit reduction modulo `2 ^ 64` wherever the Rust source
wraps (`AtomicUsize::fetch_add` / `fetch_sub`, release-mode `+`).
Fallible operations return `Except`; places where the source calls
`unwrap`/`expect` (a panic) are modelled with `Option` or a dedicated
`panicked` constructor.
-/

/-- Errors of the disk operations, from `lib.rs` (`DiskError`). -/
inductive DiskError where
  | Locked
  | InvalidFlushing
  | CapacityReached
deriving DecidableEq

/-- Error of the cursor, from `cursor/error.rs` (`CursorError`). -/
inductive CursorError where
  | InvalidRange
deriving DecidableEq

/-- `pub const U64_SIZE: usize = size_of::<u64>();` from `lib.rs`. -/
def U64_SIZE : Nat := 8

/-- The modulus of `usize` / `u64` arithmetic (64-bit platform). -/
def USIZE_MOD : Nat := 2 ^ 64

/-- The cursor of `cursor/mod.rs`: a position-tracking view over a byte
source.  The three `CursorData` variants (raw slice, read-only map,
mutable map) are all byte sequences, so a single `List Nat` models the
underlying data. -/
structure Cursor where
  data : List Nat
  position : Nat
  last_consumed_size : Nat
  len : Nat
  starting_pos : Option Nat
deriving DecidableEq

/-- `Cursor::new` (via `Cursor::raw`): position 0, `len` from the data. -/
def Cursor.new (data : List Nat) : Cursor :=
  { data := data, position := 0, last_consumed_size := 0,
    len := data.length, starting_pos := none }

/-- `Cursor::get_range(lo..hi)`: the bytes of the half-open index range. -/
def Cursor.get_range (c : Cursor) (lo hi : Nat) : List Nat :=
  (c.data.drop lo).take (hi - lo)

/-- `Cursor::peek(size)`: fails with `InvalidRange` when
`position + size > len`, otherwise returns the bytes at
`position..position + size` without advancing. -/
def Cursor.peek (c : Cursor) (size : Nat) : Except CursorError (List Nat) :=
  if c.len < c.position + size then .error .InvalidRange
  else .ok (c.get_range c.position (c.position + size))

/-- `Cursor::consume(size)`: `peek`, then advance `position` by `size` and
record `size` as `last_consumed_size`.  Returns the bytes and the updated
cursor (the cursor is unchanged on failure). -/
def Cursor.consume (c : Cursor) (size : Nat) :
    Except CursorError (List Nat) × Cursor :=
  match c.peek size with
  | .error e => (.error e, c)
  | .ok data =>
    (.ok data,
     { c with position := c.position + size, last_consumed_size := size })

/-- Little-endian byte decomposition: `nat_le_bytes k n` is the `k`
low-order base-256 digits of `n`, least significant first. -/
def nat_le_bytes : Nat → Nat → List Nat
  | 0, _ => []
  | k + 1, n => n % 256 :: nat_le_bytes k (n / 256)

/-- `u64::to_le_bytes` / `usize::to_le_bytes` (8 bytes, little-endian). -/
def u64_to_le_bytes (n : Nat) : List Nat := nat_le_bytes 8 n

/-- `u64::from_le_bytes`: little-endian recomposition of a byte list. -/
def le_bytes_to_nat : List Nat → Nat
  | [] => 0
  | b :: bs => b + 256 * le_bytes_to_nat bs

/-- `DiskMetadataV1` from `disk_metadata.rs`: the V1 payload is a single
`created_at` Unix timestamp (`u64`). -/
structure DiskMetadataV1 where
  created_at : Nat
deriving DecidableEq

/-- `DiskMetadata` from `disk_metadata.rs`: the versioned metadata sum
type; currently the single variant `V1`. -/
inductive DiskMetadata where
  | V1 : DiskMetadataV1 → DiskMetadata
deriving DecidableEq

/-- `DiskMetadata::get_le_identifier`: the one-byte version tag. -/
def DiskMetadata.get_le_identifier : DiskMetadata → List Nat
  | .V1 _ => [0]

/-- `DiskMetadata::to_vec`: serialize as `[tag] ++ payload`. -/
def DiskMetadata.to_vec : DiskMetadata → List Nat
  | .V1 data =>
    DiskMetadata.get_le_identifier (.V1 data) ++ u64_to_le_bytes data.created_at

/-- `DiskMetadata::size`: the payload size only (`U64_SIZE` for V1). -/
def DiskMetadata.size : DiskMetadata → Nat
  | .V1 _ => U64_SIZE

/-- Well-formedness of a metadata value: the `created_at` field is a
`u64`, i.e. below `2 ^ 64`. -/
def DiskMetadata.wf : DiskMetadata → Prop
  | .V1 data => data.created_at < USIZE_MOD

/-- Outcome of `DiskMetadata::try_from`:  `ok` is `Ok(metadata)`, `err`
is `Err(())` (the unknown-format-version error, the associated error type
of the `TryFrom` impl), and `panicked` marks the `unwrap` calls inside
`try_from` failing (a cursor `InvalidRange` surfacing as a panic). -/
inductive DecodeResult where
  | ok : DiskMetadata → DecodeResult
  | err : DecodeResult
  | panicked : DecodeResult
deriving DecidableEq

/-- `impl TryFrom<Vec<u8>> for DiskMetadata`: read the one-byte tag via a
cursor; on tag `0` parse 8 little-endian bytes as `created_at`; any other
tag yields `Err(())`. -/
def DiskMetadata.try_from (value : List Nat) : DecodeResult :=
  let cursor := Cursor.new value
  match cursor.consume 1 with
  | (.error _, _) => .panicked
  | (.ok le_identifier, cursor1) =>
    match le_identifier.get? 0 with
    | none => .panicked
    | some 0 =>
      match cursor1.consume U64_SIZE with
      | (.error _, _) => .panicked
      | (.ok created_at_le_bytes, _) =>
        .ok (.V1 { created_at := le_bytes_to_nat created_at_le_bytes })
    | some (_ + 1) => .err

/-- In-range overwrite of a byte region: `mmap[start..start+data.len()]
:= data` (the semantics of `copy_from_slice` / `ptr::copy_nonoverlapping`
into the mapping when the target range is in bounds). -/
def write_bytes (mmap : List Nat) (start : Nat) (data : List Nat) : List Nat :=
  mmap.take start ++ data ++ mmap.drop (start + data.length)

/-- The `Disk` state of `disk.rs` (the fields the operations touch):
`capacity` (`u64`), the atomic `write_offset` and `busy` (`usize`), the
atomic `locked` flag and the mapped byte region. -/
structure Disk where
  capacity : Nat
  write_offset : Nat
  locked : Bool
  busy : Nat
  mmap : List Nat
deriving DecidableEq

/-- `Disk::is_locked`. -/
def Disk.is_locked (d : Disk) : Bool := d.locked

/-- `Disk::reserve_space(size)`: if locked fail with `Locked` (no state
change); otherwise `fetch_add` `size` onto `write_offset` (wrapping, the
old value is `offset`) and fail with `CapacityReached` when
`offset + size > capacity`, else return `offset`.  Both the stored offset
and the compared sum are the wrapped `usize` sum. -/
def Disk.reserve_space (d : Disk) (size : Nat) : Except DiskError Nat × Disk :=
  if d.is_locked then (.error .Locked, d)
  else
    let offset := d.write_offset
    let d1 := { d with write_offset := (offset + size) % USIZE_MOD }
    if d.capacity < (offset + size) % USIZE_MOD then
      (.error .CapacityReached, d1)
    else
      (.ok offset, d1)

/-- `Disk::write(data, start_at)`: if locked fail without touching
`busy`; otherwise increment `busy`, re-check the lock (decrementing and
failing if it flipped), copy the bytes into the mapping at `start_at`,
then decrement `busy` and return `Ok(())`.  The `fetch_add`/`fetch_sub`
on `busy` wrap modulo `2 ^ 64`. -/
def Disk.write (d : Disk) (data : List Nat) (start_at : Nat) :
    Except DiskError Unit × Disk :=
  if d.is_locked then (.error .Locked, d)
  else
    let d1 := { d with busy := (d.busy + 1) % USIZE_MOD }
    if d1.is_locked then
      (.error .Locked, { d1 with busy := (d1.busy + (USIZE_MOD - 1)) % USIZE_MOD })
    else
      let d2 := { d1 with mmap := write_bytes d1.mmap start_at data }
      (.ok (), { d2 with busy := (d2.busy + (USIZE_MOD - 1)) % USIZE_MOD })

/-- `Disk::flush()`: unconditionally `fetch_sub(1)` on `busy` (wrapping),
then flush the mapping.  The OS-level sync is modelled as succeeding; the
`busy` decrement happens before it either way. -/
def Disk.flush (d : Disk) : Except DiskError Unit × Disk :=
  (.ok (), { d with busy := (d.busy + (USIZE_MOD - 1)) % USIZE_MOD })

/-- `Disk::set_locked(locked)`: store the flag, mirror it into byte 1 of
the mapping, flush (modelled as succeeding). -/
def Disk.set_locked (d : Disk) (locked : Bool) : Except DiskError Unit × Disk :=
  (.ok (),
   { d with locked := locked,
            mmap := d.mmap.set 1 (if locked then 1 else 0) })

/-- `Disk::initialize_file`: mark byte 0 initialized and byte 1 unlocked. -/
def init_file (mmap : List Nat) : List Nat :=
  (mmap.set 0 1).set 1 0

/-- `Disk::create_and_store_metadata`, with the wall-clock timestamp an
explicit argument `now` (the source reads `SystemTime::now()`): build the
V1 metadata, write its serialized length into bytes `2..10` (little
endian) and the serialized bytes at `10..`, and return the metadata and
that length. -/
def create_and_store_metadata (mmap : List Nat) (now : Nat) :
    (DiskMetadata × Nat) × List Nat :=
  let metadata := DiskMetadata.V1 { created_at := now }
  let metadata_bytes := metadata.to_vec
  let metadata_length := metadata_bytes.length
  let mmap1 := write_bytes mmap 2 (u64_to_le_bytes metadata_length)
  let mmap2 := write_bytes mmap1 10 metadata_bytes
  ((metadata, metadata_length), mmap2)

/-- `Disk::read_existing_metadata`: consume the 8-byte length, consume
that many metadata bytes and decode them.  `none` models the `expect` /
`unwrap` panics on cursor or decode failure. -/
def read_existing_metadata (cursor : Cursor) :
    Option ((DiskMetadata × Nat) × Cursor) :=
  match cursor.consume U64_SIZE with
  | (.error _, _) => none
  | (.ok metadata_size_bytes, cursor1) =>
    let metadata_size := le_bytes_to_nat metadata_size_bytes
    match cursor1.consume metadata_size with
    | (.error _, _) => none
    | (.ok metadata_bytes, cursor2) =>
      match DiskMetadata.try_from metadata_bytes with
      | .ok m => some ((m, metadata_size), cursor2)
      | _ => none

/-- `Disk::read_metadata`: read bytes 0 and 1 (initialized / locked); if
initialized, re-read the stored metadata without touching the mapping;
otherwise initialize the header and create-and-store fresh metadata
stamped `now`.  Returns `(locked, metadata, metadata_size)` and the
resulting mapping; `none` models the `expect` panic. -/
def read_metadata (mmap : List Nat) (now : Nat) :
    Option ((Bool × DiskMetadata × Nat) × List Nat) :=
  let cursor := Cursor.new mmap
  match cursor.consume 2 with
  | (.error _, _) => none
  | (.ok ilv, cursor1) =>
    let initialized := ilv.getD 0 0 == 1
    let locked := ilv.getD 1 0 == 1
    if initialized then
      match read_existing_metadata cursor1 with
      | none => none
      | some ((m, sz), _) => some ((locked, m, sz), mmap)
    else
      let mmap1 := init_file mmap
      let r := create_and_store_metadata mmap1 now
      some ((locked, r.1.1, r.1.2), r.2)

/-- First-open result on a fresh mapping: initialize the header and store
fresh metadata stamped `now` (the mapping `read_metadata` leaves behind on
the uninitialized branch). -/
def init_mmap (mmap : List Nat) (now : Nat) : List Nat :=
  (create_and_store_metadata (init_file mmap) now).2

/-- Sequential execution of a batch of `reserve_space` calls (the
linearization order of a concurrent batch): the per-call results paired
with the requested sizes, and the final state. -/
def reserve_results : Disk → List Nat → List (Except DiskError Nat × Nat) × Disk
  | d, [] => ([], d)
  | d, n :: ns =>
    let r := Disk.reserve_space d n
    let rest := reserve_results r.2 ns
    ((r.1, n) :: rest.1, rest.2)

/-- The byte ranges handed out by a batch of reservations starting at
offset `w0`: call `i` owns `[w0 + n_0 + ... + n_(i-1), ... + n_i)`,
whether or not its capacity check passes. -/
def granted_ranges : Nat → List Nat → List (Nat × Nat)
  | _, [] => []
  | w0, n :: ns => (w0, w0 + n) :: granted_ranges (w0 + n) ns

/-- The per-call results a batch of reservations must produce on an
unlocked disk of capacity `cap` starting at offset `w0`. -/
def expected_results : Nat → Nat → List Nat → List (Except DiskError Nat × Nat)
  | _, _, [] => []
  | cap, w0, n :: ns =>
    ((if cap < w0 + n then .error .CapacityReached else .ok w0), n)
      :: expected_results cap (w0 + n) ns

/-- Pairwise disjointness of half-open ranges `[lo, hi)`. -/
def pairwise_disjoint (rs : List (Nat × Nat)) : Prop :=
  rs.Pairwise (fun a b => a.2 ≤ b.1 ∨ b.2 ≤ a.1)

/-- `tiles lo hi rs`: the ranges `rs`, in order, exactly cover `[lo, hi)`
with no gap and no overlap. -/
def tiles : Nat → Nat → List (Nat × Nat) → Prop
  | lo, hi, [] => lo = hi
  | lo, hi, r :: rs => r.1 = lo ∧ tiles r.2 hi rs

/-- A concrete unlocked disk used to instantiate the theorems: capacity
30, write offset 19 (header + V1 metadata), idle, zero-filled mapping. -/
def dex : Disk :=
  { capacity := 30, write_offset := 19, locked := false, busy := 0,
    mmap := List.replicate 30 0 }

/-- The same concrete disk with the lock flag set. -/
def dex_locked : Disk :=
  { capacity := 30, write_offset := 19, locked := true, busy := 0,
    mmap := List.replicate 30 0 }

/-! ### Helper lemmas on the little-endian byte codec -/

theorem length_nat_le_bytes (k : Nat) : ∀ n, (nat_le_bytes k n).length = k := by
  induction k with
  | zero => intro n; rfl
  | succ k ih => intro n; simp [nat_le_bytes, ih]

theorem le_bytes_to_nat_nat_le_bytes (k : Nat) :
    ∀ n, le_bytes_to_nat (nat_le_bytes k n) = n % 256 ^ k := by
  induction k with
  | zero => intro n; simp [nat_le_bytes, le_bytes_to_nat, Nat.mod_one]
  | succ k ih =>
    intro n
    simp only [nat_le_bytes, le_bytes_to_nat, ih]
    rw [pow_succ', Nat.mod_mul]

theorem le_bytes_roundtrip (n : Nat) (h : n < USIZE_MOD) :
    le_bytes_to_nat (u64_to_le_bytes n) = n := by
  have h256 : (256 : Nat) ^ 8 = USIZE_MOD := by norm_num [USIZE_MOD]
  rw [u64_to_le_bytes, le_bytes_to_nat_nat_le_bytes, h256, Nat.mod_eq_of_lt h]

/-- Claim C9: for every cursor (with its recorded `len` matching the data)
and every `n`, when `position + n ≤ len`, `consume n` returns exactly the
`n` bytes starting at `position`, advances `position` by `n` and records
`n` as `last_consumed_size`; when `position + n > len` it fails with
`InvalidRange` and leaves the cursor unchanged. -/
theorem cursor_consume_spec (c : Cursor) (n : Nat) (hlen : c.len = c.data.length) :
    (c.position + n ≤ c.len →
      (c.consume n).1 = .ok ((c.data.drop c.position).take n) ∧
      ((c.data.drop c.position).take n).length = n ∧
      (c.consume n).2 =
        { c with position := c.position + n, last_consumed_size := n }) ∧
    (c.len < c.position + n →
      (c.consume n).1 = .error .InvalidRange ∧ (c.consume n).2 = c) := by
  constructor
  · intro h
    have hlt : ¬ c.len < c.position + n := by omega
    refine ⟨?_, ?_, ?_⟩
    · simp [Cursor.consume, Cursor.peek, hlt, Cursor.get_range]
    · simp only [List.length_take, List.length_drop]
      omega
    · simp [Cursor.consume, Cursor.peek, hlt]
  · intro h
    simp [Cursor.consume, Cursor.peek, h]

theorem cursor_consume_spec_witness :
    ((Cursor.new [1, 2, 3, 4]).consume 2).1 = .ok [1, 2] ∧
    ((Cursor.new [1, 2, 3, 4]).consume 2).2.position = 2 ∧
    ((Cursor.new [1, 2, 3, 4]).consume 2).2.last_consumed_size = 2 := by
  have h := (cursor_consume_spec (Cursor.new [1, 2, 3, 4]) 2 rfl).1 (by decide)
  refine ⟨h.1.trans rfl, ?_, ?_⟩
  · rw [h.2.2]; rfl
  · rw [h.2.2]

/-- Claim C7: for every byte vector whose first byte is a non-zero value
(not the V1 tag), `try_from` returns `Err(())`, the unknown-format-version
error — a `DecodeResult.err`, distinct by construction both from a decoded
variant and from the cursor `InvalidRange` failure (which would surface as
`panicked`). -/
theorem try_from_unknown_tag (v : List Nat) (b : Nat) (hv : v.head? = some (b + 1)) :
    DiskMetadata.try_from v = .err := by
  cases v with
  | nil => simp at hv
  | cons a rest =>
    simp only [List.head?] at hv
    have ha : a = b + 1 := by injection hv
    subst ha
    simp [DiskMetadata.try_from, Cursor.new, Cursor.consume, Cursor.peek, Cursor.get_range]

theorem try_from_unknown_tag_witness :
    DiskMetadata.try_from [7] = .err :=
  try_from_unknown_tag [7] 6 rfl

theorem metadata_roundtrip_aux (c : Nat) (h : c < USIZE_MOD) :
    DiskMetadata.try_from ((0 : Nat) :: u64_to_le_bytes c) = .ok (.V1 ⟨c⟩) := by
  have hlen : (u64_to_le_bytes c).length = 8 := length_nat_le_bytes 8 c
  simp [DiskMetadata.try_from, Cursor.new, Cursor.consume, Cursor.peek,
        Cursor.get_range, hlen, U64_SIZE, List.take_of_length_le,
        le_bytes_roundtrip c h]

/-- Claim C8: decoding the serialization of any well-formed metadata value
yields it back (same variant, same `created_at`); the serialization is the
deterministic `[1-byte tag][payload]` layout with no padding (length
`1 + size`, first byte the tag). -/
theorem to_vec_roundtrip (m : DiskMetadata) (h : m.wf) :
    DiskMetadata.try_from m.to_vec = .ok m ∧
    m.to_vec.length = 1 + m.size ∧
    m.to_vec.take 1 = m.get_le_identifier := by
  cases m with
  | V1 data =>
    have hwf : data.created_at < USIZE_MOD := h
    refine ⟨?_, ?_, ?_⟩
    · have := metadata_roundtrip_aux data.created_at hwf
      simpa [DiskMetadata.to_vec, DiskMetadata.get_le_identifier] using this
    · simp [DiskMetadata.to_vec, DiskMetadata.get_le_identifier, DiskMetadata.size,
            u64_to_le_bytes, length_nat_le_bytes, U64_SIZE]
    · simp [DiskMetadata.to_vec, DiskMetadata.get_le_identifier]

theorem to_vec_roundtrip_witness :
    DiskMetadata.try_from (DiskMetadata.to_vec (.V1 ⟨42⟩)) = .ok (.V1 ⟨42⟩) ∧
    (DiskMetadata.to_vec (.V1 ⟨42⟩)).length = 9 := by
  have h := to_vec_roundtrip (.V1 ⟨42⟩) (by norm_num [DiskMetadata.wf, USIZE_MOD])
  exact ⟨h.1, h.2.1.trans rfl⟩
/-! ### Wrapping usize arithmetic helpers -/

theorem usize_mod_pos : 0 < USIZE_MOD := by norm_num [USIZE_MOD]

theorem fetch_add_sub_cancel (b : Nat) (hb : b < USIZE_MOD) :
    ((b + 1) % USIZE_MOD + (USIZE_MOD - 1)) % USIZE_MOD = b := by
  have hpos := usize_mod_pos
  rcases Nat.lt_or_ge (b + 1) USIZE_MOD with h | h
  · rw [Nat.mod_eq_of_lt h]
    have he : b + 1 + (USIZE_MOD - 1) = b + USIZE_MOD := by omega
    rw [he, Nat.add_mod_right, Nat.mod_eq_of_lt hb]
  · have hb1 : b + 1 = USIZE_MOD := by omega
    rw [hb1, Nat.mod_self, Nat.zero_add, Nat.mod_eq_of_lt (by omega)]
    omega

theorem wrap_sub_one (b : Nat) (h1 : 0 < b) (hb : b < USIZE_MOD) :
    (b + (USIZE_MOD - 1)) % USIZE_MOD = b - 1 := by
  have hpos := usize_mod_pos
  have he : b + (USIZE_MOD - 1) = (b - 1) + USIZE_MOD := by omega
  rw [he, Nat.add_mod_right, Nat.mod_eq_of_lt (by omega)]

/-- Claim C1 counterexample: on a concrete unlocked idle disk, a
successful `write` leaves `busy` at 0, not incremented to 1 — `write`
itself decrements `busy` back on its success path. -/
theorem write_busy_increment_cex :
    (Disk.write dex [1, 2, 3] 19).1 = .ok () ∧
    (Disk.write dex [1, 2, 3] 19).2.busy = 0 ∧
    ¬ (Disk.write dex [1, 2, 3] 19).2.busy = dex.busy + 1 :=
  ⟨rfl, rfl, by decide⟩

/-- Claim C1 (amended): after every successful `write` on an unlocked
disk the `busy` counter is unchanged (the success path increments it on
entry and decrements it back before returning); it is not left
incremented. -/
theorem write_success_busy_unchanged (d : Disk) (data : List Nat) (start_at : Nat)
    (hb : d.busy < USIZE_MOD)
    (h : (d.write data start_at).1 = .ok ()) :
    (d.write data start_at).2.busy = d.busy := by
  by_cases hl : d.locked
  · simp [Disk.write, Disk.is_locked, hl] at h
  · simp [Disk.write, Disk.is_locked, hl, fetch_add_sub_cancel d.busy hb]

theorem write_success_busy_unchanged_witness :
    (Disk.write dex [1, 2] 19).2.busy = dex.busy :=
  write_success_busy_unchanged dex [1, 2] 19 (by decide) rfl

/-- Claim C2: on an unlocked disk, `reserve_space size` always advances
`write_offset` by `size` (even on failure, permanently consuming the
range); it returns the pre-increment offset exactly when
`offset + size ≤ capacity` (the `= capacity` boundary included) and fails
with `CapacityReached` when `offset + size > capacity`. -/
theorem reserve_space_spec (d : Disk) (size : Nat) (hl : d.locked = false)
    (hov : d.write_offset + size < USIZE_MOD) :
    (d.reserve_space size).2 = { d with write_offset := d.write_offset + size } ∧
    (d.write_offset + size ≤ d.capacity →
      (d.reserve_space size).1 = .ok d.write_offset) ∧
    (d.capacity < d.write_offset + size →
      (d.reserve_space size).1 = .error .CapacityReached) := by
  have hmod : (d.write_offset + size) % USIZE_MOD = d.write_offset + size :=
    Nat.mod_eq_of_lt hov
  refine ⟨?_, ?_, ?_⟩
  · by_cases hc : d.capacity < d.write_offset + size <;>
      simp [Disk.reserve_space, Disk.is_locked, hl, hc, hmod]
  · intro h
    have hnc : ¬ d.capacity < (d.write_offset + size) % USIZE_MOD := by
      rw [hmod]; omega
    simp [Disk.reserve_space, Disk.is_locked, hl, hnc]
  · intro h
    have hc : d.capacity < (d.write_offset + size) % USIZE_MOD := by
      rw [hmod]; omega
    simp [Disk.reserve_space, Disk.is_locked, hl, hc]

theorem reserve_space_spec_witness :
    (Disk.reserve_space dex 11).1 = .ok 19 ∧
    (Disk.reserve_space dex 11).2.write_offset = 30 ∧
    (Disk.reserve_space dex 12).1 = .error .CapacityReached ∧
    (Disk.reserve_space dex 12).2.write_offset = 31 := by
  have h11 := reserve_space_spec dex 11 rfl (by decide)
  have h12 := reserve_space_spec dex 12 rfl (by decide)
  refine ⟨(h11.2.1 (by decide)).trans rfl, ?_, h12.2.2 (by decide), ?_⟩
  · rw [h11.1]; rfl
  · rw [h12.1]; rfl

/-- Claim C6: when the lock flag is set, `reserve_space` fails with
`Locked` and the state (in particular `write_offset`) is completely
unchanged; after `set_locked false`, a reservation with sufficient
capacity succeeds again and returns the same pre-increment offset. -/
theorem locked_reserve_spec (d : Disk) (size size2 : Nat) (hl : d.locked = true)
    (h2 : d.write_offset + size2 ≤ d.capacity)
    (h3 : d.write_offset + size2 < USIZE_MOD) :
    d.reserve_space size = (.error .Locked, d) ∧
    ((d.set_locked false).2.reserve_space size2).1 = .ok d.write_offset ∧
    ((d.set_locked false).2.reserve_space size2).2.write_offset =
      d.write_offset + size2 := by
  have hmod : (d.write_offset + size2) % USIZE_MOD = d.write_offset + size2 :=
    Nat.mod_eq_of_lt h3
  have hnc : ¬ d.capacity < (d.write_offset + size2) % USIZE_MOD := by
    rw [hmod]; omega
  have hnc2 : ¬ d.capacity < d.write_offset + size2 := by omega
  refine ⟨?_, ?_, ?_⟩
  · simp [Disk.reserve_space, Disk.is_locked, hl]
  · simp [Disk.set_locked, Disk.reserve_space, Disk.is_locked, hnc]
  · simp [Disk.set_locked, Disk.reserve_space, Disk.is_locked, hnc, hnc2, hmod]

theorem locked_reserve_spec_witness :
    Disk.reserve_space dex_locked 5 = (.error .Locked, dex_locked) ∧
    ((Disk.set_locked dex_locked false).2.reserve_space 4).1 = .ok 19 ∧
    ((Disk.set_locked dex_locked false).2.reserve_space 4).2.write_offset = 23 := by
  have h := locked_reserve_spec dex_locked 5 4 rfl (by decide) (by decide)
  exact ⟨h.1, h.2.1.trans rfl, h.2.2.trans rfl⟩

/-- Claim C10: `flush` decrements `busy` by exactly one unconditionally
(wrapping `fetch_sub`, no positivity check): a completed successful
`write` leaves `busy` at 0 (it increments and then decrements), and a
`flush` after it wraps the counter modulo `2 ^ 64` to `usize::MAX`
instead of staying at 0 or failing; on a positive counter it subtracts
one. -/
theorem flush_busy_wraparound (d : Disk) (data : List Nat) (start_at : Nat)
    (hl : d.locked = false) (hb : d.busy = 0) :
    (d.write data start_at).1 = .ok () ∧
    (d.write data start_at).2.busy = 0 ∧
    ((d.write data start_at).2.flush).2.busy = USIZE_MOD - 1 ∧
    (∀ e : Disk, 0 < e.busy → e.busy < USIZE_MOD →
      (e.flush).2.busy = e.busy - 1) := by
  have hpos := usize_mod_pos
  have hbusy : (d.write data start_at).2.busy = 0 := by
    simp [Disk.write, Disk.is_locked, hl, hb]
    simpa using fetch_add_sub_cancel 0 usize_mod_pos
  refine ⟨?_, hbusy, ?_, ?_⟩
  · simp [Disk.write, Disk.is_locked, hl]
  · simp [Disk.flush, hbusy, Nat.mod_eq_of_lt (show USIZE_MOD - 1 < USIZE_MOD by omega)]
  · intro e h1 h2
    simp [Disk.flush, wrap_sub_one e.busy h1 h2]

theorem flush_busy_wraparound_witness :
    (Disk.write dex [5] 19).1 = .ok () ∧
    (Disk.write dex [5] 19).2.busy = 0 ∧
    ((Disk.write dex [5] 19).2.flush).2.busy = USIZE_MOD - 1 := by
  have h := flush_busy_wraparound dex [5] 19 rfl rfl
  exact ⟨h.1, h.2.1, h.2.2.1⟩

/-! ### Batch reservation lemmas -/

theorem reserve_results_spec (ns : List Nat) :
    ∀ d : Disk, d.locked = false → d.write_offset + ns.sum < USIZE_MOD →
    (reserve_results d ns).1 = expected_results d.capacity d.write_offset ns ∧
    (reserve_results d ns).2 = { d with write_offset := d.write_offset + ns.sum } := by
  induction ns with
  | nil =>
    intro d hl hov
    exact ⟨rfl, by simp [reserve_results]⟩
  | cons n ns ih =>
    intro d hl hov
    have hsum : (n :: ns).sum = n + ns.sum := by simp
    have hn : d.write_offset + n < USIZE_MOD := by rw [hsum] at hov; omega
    have hmod : (d.write_offset + n) % USIZE_MOD = d.write_offset + n :=
      Nat.mod_eq_of_lt hn
    have hr2 : (d.reserve_space n).2 = { d with write_offset := d.write_offset + n } := by
      by_cases hc : d.capacity < d.write_offset + n <;>
        simp [Disk.reserve_space, Disk.is_locked, hl, hmod, hc]
    have hr1 : (d.reserve_space n).1 =
        if d.capacity < d.write_offset + n then .error .CapacityReached
        else .ok d.write_offset := by
      by_cases hc : d.capacity < d.write_offset + n <;>
        simp [Disk.reserve_space, Disk.is_locked, hl, hmod, hc]
    obtain ⟨ih1, ih2⟩ := ih { d with write_offset := d.write_offset + n } hl
      (by rw [hsum] at hov; simp; omega)
    constructor
    · show ((d.reserve_space n).1, n) ::
          (reserve_results (d.reserve_space n).2 ns).1 = _
      rw [hr2, ih1, hr1]
      simp [expected_results]
    · show (reserve_results (d.reserve_space n).2 ns).2 = _
      rw [hr2, ih2]
      simp [hsum, Nat.add_assoc]

theorem granted_ranges_lb (ns : List Nat) :
    ∀ w0 : Nat, ∀ r ∈ granted_ranges w0 ns, w0 ≤ r.1 := by
  induction ns with
  | nil => intro w0 r hr; simp [granted_ranges] at hr
  | cons n ns ih =>
    intro w0 r hr
    simp only [granted_ranges, List.mem_cons] at hr
    rcases hr with h | h
    · subst h; exact Nat.le_refl w0
    · exact Nat.le_trans (Nat.le_add_right w0 n) (ih (w0 + n) r h)

theorem granted_ranges_disjoint (ns : List Nat) :
    ∀ w0 : Nat, pairwise_disjoint (granted_ranges w0 ns) := by
  induction ns with
  | nil => intro w0; exact List.Pairwise.nil
  | cons n ns ih =>
    intro w0
    exact List.Pairwise.cons
      (fun b hb => Or.inl (granted_ranges_lb ns (w0 + n) b hb))
      (ih (w0 + n))

theorem granted_ranges_tiles (ns : List Nat) :
    ∀ w0 : Nat, tiles w0 (w0 + ns.sum) (granted_ranges w0 ns) := by
  induction ns with
  | nil => intro w0; simp [granted_ranges, tiles]
  | cons n ns ih =>
    intro w0
    refine ⟨rfl, ?_⟩
    have h := ih (w0 + n)
    simpa [Nat.add_assoc] using h

/-- Claim C4: a batch of `reserve_space` calls on an unlocked disk (in
their linearization order — each call is a single atomic fetch-and-add,
so any concurrent interleaving is some such order) produces the offsets
`w0, w0+n_0, ...`; the granted ranges `[offset, offset+n)` are pairwise
disjoint even when some capacity checks fail, and sorted they exactly
tile `[initial_offset, initial_offset + sum ns)` with no gaps or
overlaps. -/
theorem reserve_batch_linearizable (d : Disk) (ns : List Nat)
    (hl : d.locked = false) (hov : d.write_offset + ns.sum < USIZE_MOD) :
    (reserve_results d ns).1 = expected_results d.capacity d.write_offset ns ∧
    (reserve_results d ns).2.write_offset = d.write_offset + ns.sum ∧
    pairwise_disjoint (granted_ranges d.write_offset ns) ∧
    tiles d.write_offset (d.write_offset + ns.sum) (granted_ranges d.write_offset ns) := by
  obtain ⟨h1, h2⟩ := reserve_results_spec ns d hl hov
  exact ⟨h1, by rw [h2], granted_ranges_disjoint ns d.write_offset,
         granted_ranges_tiles ns d.write_offset⟩

theorem reserve_batch_linearizable_witness :
    (reserve_results dex [3, 4, 5]).1 = expected_results 30 19 [3, 4, 5] ∧
    (reserve_results dex [3, 4, 5]).2.write_offset = 31 ∧
    pairwise_disjoint (granted_ranges 19 [3, 4, 5]) ∧
    tiles 19 31 (granted_ranges 19 [3, 4, 5]) := by
  have h := reserve_batch_linearizable dex [3, 4, 5] rfl (by decide)
  exact ⟨h.1, h.2.1.trans rfl, h.2.2.1, h.2.2.2⟩

/-! ### Header layout lemmas -/

theorem to_vec_V1_length (t : Nat) : (DiskMetadata.V1 ⟨t⟩).to_vec.length = 9 := by
  simp [DiskMetadata.to_vec, DiskMetadata.get_le_identifier, u64_to_le_bytes,
        length_nat_le_bytes]

theorem create_store_fst (m : List Nat) (t : Nat) :
    (create_and_store_metadata m t).1 = (DiskMetadata.V1 ⟨t⟩, 9) := by
  simp [create_and_store_metadata, to_vec_V1_length]

theorem create_store_shape (a b : Nat) (rest : List Nat) (t : Nat) :
    (create_and_store_metadata (a :: b :: rest) t).2 =
      a :: b :: (u64_to_le_bytes 9 ++
        ((DiskMetadata.V1 ⟨t⟩).to_vec ++ rest.drop 17)) := by
  have hL : (u64_to_le_bytes 9).length = 8 := length_nat_le_bytes 8 9
  have hD : (DiskMetadata.V1 ⟨t⟩ : DiskMetadata).to_vec.length = 9 := to_vec_V1_length t
  simp [create_and_store_metadata, write_bytes, to_vec_V1_length,
        List.take_append_eq_append_take, List.drop_append_eq_append_drop,
        hL, hD, List.drop_drop]

theorem read_metadata_uninit (mmap : List Nat) (t : Nat)
    (h2 : 2 ≤ mmap.length) (h0 : mmap.getD 0 0 ≠ 1) :
    read_metadata mmap t =
      some (((mmap.getD 1 0 == 1), DiskMetadata.V1 ⟨t⟩, 9), init_mmap mmap t) := by
  match mmap, h2 with
  | a :: b :: rest, _ =>
    have h0a : a ≠ 1 := h0
    have hc : ¬ (rest.length + 1 + 1 < 2) := by omega
    simp [read_metadata, Cursor.new, Cursor.consume, Cursor.peek, Cursor.get_range,
          h0a, hc, init_mmap, init_file, create_store_fst]

theorem read_metadata_initialized_shape (L D R : List Nat) (m : DiskMetadata) (t2 : Nat)
    (hL : L.length = 8) (hD : D.length = 9)
    (hsize : le_bytes_to_nat L = 9)
    (hdec : DiskMetadata.try_from D = .ok m) :
    read_metadata (1 :: 0 :: (L ++ (D ++ R))) t2 =
      some ((false, m, 9), 1 :: 0 :: (L ++ (D ++ R))) := by
  have hlen : (1 :: 0 :: (L ++ (D ++ R)) : List Nat).length = 19 + R.length := by
    simp [hL, hD]; omega
  have hA : ¬ (19 + R.length < 2) := by omega
  have hB : ¬ (19 + R.length < 10) := by omega
  have hC : ¬ (19 + R.length < 19) := by omega
  simp [read_metadata, Cursor.new, Cursor.consume, Cursor.peek, Cursor.get_range,
        read_existing_metadata, U64_SIZE, hlen, hsize, hdec, hA, hB, hC,
        List.take_left' hL, List.drop_left' hL, List.take_left' hD]

theorem read_metadata_after_init (mmap : List Nat) (t1 t2 : Nat)
    (h : 19 ≤ mmap.length) (ht : t1 < USIZE_MOD) :
    read_metadata (init_mmap mmap t1) t2 =
      some ((false, DiskMetadata.V1 ⟨t1⟩, 9), init_mmap mmap t1) := by
  match mmap, h with
  | a :: b :: rest, _ =>
    have hshape : init_mmap (a :: b :: rest) t1 =
        1 :: 0 :: (u64_to_le_bytes 9 ++
          ((DiskMetadata.V1 ⟨t1⟩).to_vec ++ rest.drop 17)) := by
      simp [init_mmap, init_file, create_store_shape]
    rw [hshape]
    exact read_metadata_initialized_shape _ _ _ _ t2 (length_nat_le_bytes 8 9)
      (to_vec_V1_length t1) rfl
      (by simpa [DiskMetadata.to_vec, DiskMetadata.get_le_identifier] using
        metadata_roundtrip_aux t1 ht)

/-- Claim C5: opening a backing file whose header byte 0 reads 1 never
regenerates the metadata: a first open of an uninitialized mapping stores
metadata stamped `t1`, and a second open (at any later time `t2`) re-reads
and decodes the stored bytes, returning the same `created_at = t1` and
leaving the mapping untouched. -/
theorem open_twice_stable (mmap : List Nat) (t1 t2 : Nat)
    (h : 19 ≤ mmap.length) (h0 : mmap.getD 0 0 ≠ 1) (ht : t1 < USIZE_MOD) :
    read_metadata mmap t1 =
      some (((mmap.getD 1 0 == 1), DiskMetadata.V1 ⟨t1⟩, 9), init_mmap mmap t1) ∧
    read_metadata (init_mmap mmap t1) t2 =
      some ((false, DiskMetadata.V1 ⟨t1⟩, 9), init_mmap mmap t1) :=
  ⟨read_metadata_uninit mmap t1 (by omega) h0,
   read_metadata_after_init mmap t1 t2 h ht⟩

theorem open_twice_stable_witness :
    read_metadata (List.replicate 19 0) 5 =
      some ((false, DiskMetadata.V1 ⟨5⟩, 9), init_mmap (List.replicate 19 0) 5) ∧
    read_metadata (init_mmap (List.replicate 19 0) 5) 77 =
      some ((false, DiskMetadata.V1 ⟨5⟩, 9), init_mmap (List.replicate 19 0) 5) := by
  have h := open_twice_stable (List.replicate 19 0) 5 77 (by decide) (by decide) (by decide)
  exact ⟨h.1, h.2⟩

/-- Claim C3 counterexample: on a concrete fresh file the stored
`metadata_length` field is 9, the serialized `[tag][payload]` length,
while the codec's `size()` (payload only) is 8 — the field does not equal
`byte_size()`. -/
theorem metadata_length_field_cex :
    (create_and_store_metadata (init_file (List.replicate 19 0)) 0).1.2 = 9 ∧
    ((create_and_store_metadata (init_file (List.replicate 19 0)) 0).2.drop 2).take 8 =
      u64_to_le_bytes 9 ∧
    DiskMetadata.size (.V1 ⟨0⟩) = 8 ∧
    (9 : Nat) ≠ 8 :=
  ⟨rfl, rfl, rfl, by decide⟩

/-- Claim C3 (amended): the 8-byte little-endian `metadata_length` field
written into header bytes 2..10 when a fresh file is first initialized
equals the full serialized metadata length `to_vec().len()` — the payload
size plus the 1-byte version tag, i.e. `1 + byte_size()` (9 for the V1
variant) — not the payload-only `byte_size()`. -/
theorem metadata_length_field (mmap : List Nat) (now : Nat) (h : 19 ≤ mmap.length) :
    (create_and_store_metadata mmap now).1.2 = (DiskMetadata.V1 ⟨now⟩).to_vec.length ∧
    (create_and_store_metadata mmap now).1.2 = 1 + (DiskMetadata.V1 ⟨now⟩).size ∧
    ((create_and_store_metadata mmap now).2.drop 2).take 8 =
      u64_to_le_bytes ((DiskMetadata.V1 ⟨now⟩).to_vec.length) := by
  match mmap, h with
  | a :: b :: rest, _ =>
    have h1 : (create_and_store_metadata (a :: b :: rest) now).1.2 = 9 := by
      rw [create_store_fst]
    refine ⟨h1.trans (to_vec_V1_length now).symm, ?_, ?_⟩
    · rw [h1]; simp [DiskMetadata.size, U64_SIZE]
    · rw [create_store_shape, to_vec_V1_length]
      exact List.take_left' (length_nat_le_bytes 8 9)

theorem metadata_length_field_witness :
    (create_and_store_metadata (List.replicate 19 0) 3).1.2 = 9 ∧
    ((create_and_store_metadata (List.replicate 19 0) 3).2.drop 2).take 8 =
      u64_to_le_bytes 9 := by
  have h := metadata_length_field (List.replicate 19 0) 3 (by decide)
  exact ⟨h.1.trans rfl, h.2.2.trans rfl⟩
